import Mathlib

/-!
# Verification of the `compose selfupdate` pipeline

A shallow embedding of `cmd/compose/selfupdate.go`: the data model
(`VersionResponse`, `AssetsResponse`), the platform-asset resolver
(`matchArchitecture`), the asset search (`searchAssets`), the semantic-version
comparison used by the update decision (the `Masterminds/semver` v1 `Compare`
and `LessThan` as invoked by the source), the SHA-256 integrity comparison, and
the top-level `runSelfUpdate` pipeline as a trace of observable effects
(downloads, renames, printed messages) over an environment supplying the
results of all OS and network calls.
-/

set_option maxRecDepth 4000

/-- Release record parsed from the GitHub releases feed
(`VersionResponse` in the source). -/
structure VersionResponse where
  Id : Nat
  Url : String
  Name : String
  TagName : String
deriving Repr, DecidableEq

/-- Asset record (`AssetsResponse` in the source). -/
structure AssetsResponse where
  Id : Nat
  Url : String
  Name : String
deriving Repr, DecidableEq

/-- Go `fmt.Errorf("... %q ...")` quoting of a plain string (no characters
needing escapes occur in the inputs the source passes). -/
def goQuote (s : String) : String := "\"" ++ s ++ "\""

/-- The error message built by `matchArchitecture` in the source:
`fmt.Errorf("no matching assets was found for %q and %q", runtime.GOOS, runtime.GOARCH)`. -/
def noMatchingAssetsMsg (goos goarch : String) : String :=
  "no matching assets was found for " ++ goQuote goos ++ " and " ++ goQuote goarch

/-- `matchArchitecture` from the source, with `runtime.GOOS` and
`runtime.GOARCH` made explicit parameters.  The if/else-if chains mirror the
Go control flow: any branch chain that matches nothing falls through to the
final `return "", fmt.Errorf(...)`. -/
def matchArchitecture (goos goarch : String) : Except String String :=
  if goos = "darwin" then
    if goarch = "arm64" then Except.ok "darwin-aarch64"
    else if goarch = "x86_64" then Except.ok "darwin-x86_64"
    else Except.error (noMatchingAssetsMsg goos goarch)
  else if goos = "linux" then
    if goarch = "s390x" then Except.ok "linux-s390x"
    else if goarch = "arm64" then Except.ok "linux-aarch64"
    else if goarch = "" then Except.ok "linux-armv6"
    else if goarch = "" then Except.ok "linux-armv7"
    else if goarch = "amd64" then Except.ok "linux-x86_64"
    else Except.error (noMatchingAssetsMsg goos goarch)
  else if goos = "windows" ∧ goarch = "x86_64" then Except.ok "windows-x86_64"
  else Except.error (noMatchingAssetsMsg goos goarch)

/-- Loop body of `searchAssets`, carrying the running index `i` of the Go
`for i := range assets` loop. -/
def searchAssetsAux : List AssetsResponse → String → Nat → Nat × Option String
  | [], _, _ => (0, some "No matching asset was found")
  | a :: rest, needle, i =>
      if a.Name = needle then (i, none) else searchAssetsAux rest needle (i + 1)

/-- `searchAssets` from the source: returns the index of the first asset whose
`Name` equals `needle`, or `(0, error)` when none matches.  The Go `(int, error)`
return is modelled as `Nat × Option String` (`none` = nil error). -/
def searchAssets (assets : List AssetsResponse) (needle : String) : Nat × Option String :=
  searchAssetsAux assets needle 0

/-! ## Semantic versions (`github.com/Masterminds/semver` v1, as used by the source)

The source calls `semver.NewVersion` on the hardcoded current-version literal
`"2.2.2"` and on the candidate tag, then branches on
`nextVersion.LessThan(currentVersion)`.  We embed the library's `Compare`,
which orders by major, minor, patch, then prerelease precedence. -/

/-- A parsed semantic version (the `semver.Version` fields the comparison uses). -/
structure SemVer where
  major : Nat
  minor : Nat
  patch : Nat
  pre : String
  metadata : String
deriving Repr, DecidableEq

/-- `strconv.ParseUint(s, 10, 64)`: succeeds on a nonempty all-digit string
whose value fits in 64 bits. -/
def parseUint64 (s : String) : Option Nat :=
  if s.isEmpty then none
  else if s.toList.all (fun c => c.isDigit) then
    let n := s.toList.foldl (fun acc c => acc * 10 + (c.toNat - 48)) 0
    if n < 2 ^ 64 then some n else none
  else none

/-- Go byte-wise string `<` on the character lists (UTF-8 byte order agrees
with code-point order). -/
def goStrLess : List Char → List Char → Bool
  | [], [] => false
  | [], _ :: _ => true
  | _ :: _, [] => false
  | a :: as, b :: bs =>
      if a.toNat < b.toNat then true
      else if b.toNat < a.toNat then false
      else goStrLess as bs

/-- `comparePrePart` from Masterminds semver v1: compares one dot-separated
prerelease identifier pair (numeric identifiers numerically, otherwise
byte-wise as strings, an absent part losing to a present one). -/
def comparePrePart (s o : String) : Int :=
  if s = o then 0
  else if s = "" then (if o ≠ "" then -1 else 1)
  else if o = "" then (if s ≠ "" then 1 else -1)
  else
    match parseUint64 o, parseUint64 s with
    | none, none => if goStrLess o.toList s.toList then 1 else -1
    | none, some _ => -1
    | some _, none => 1
    | some oi, some si => if si > oi then 1 else -1

/-- The part-by-part loop of `comparePrerelease`, the shorter side padded
with empty parts. -/
def comparePreParts : List String → List String → Int
  | [], [] => 0
  | [], o :: os =>
      let d := comparePrePart "" o
      if d ≠ 0 then d else comparePreParts [] os
  | s :: ss, [] =>
      let d := comparePrePart s ""
      if d ≠ 0 then d else comparePreParts ss []
  | s :: ss, o :: os =>
      let d := comparePrePart s o
      if d ≠ 0 then d else comparePreParts ss os

/-- `comparePrerelease` from Masterminds semver v1. -/
def comparePrerelease (v o : String) : Int :=
  comparePreParts (v.splitOn ".") (o.splitOn ".")

/-- `compareSegment` from Masterminds semver v1. -/
def compareSegment (v o : Nat) : Int :=
  if v < o then -1 else if v > o then 1 else 0

/-- `(*Version).Compare` from Masterminds semver v1: major, minor, patch,
then prerelease precedence (an empty prerelease outranks any nonempty one). -/
def SemVer.compare (v o : SemVer) : Int :=
  if compareSegment v.major o.major ≠ 0 then compareSegment v.major o.major
  else if compareSegment v.minor o.minor ≠ 0 then compareSegment v.minor o.minor
  else if compareSegment v.patch o.patch ≠ 0 then compareSegment v.patch o.patch
  else if v.pre = "" ∧ o.pre = "" then 0
  else if v.pre = "" then 1
  else if o.pre = "" then -1
  else comparePrerelease v.pre o.pre

/-- `(*Version).LessThan` from Masterminds semver v1. -/
def SemVer.lessThan (v o : SemVer) : Bool :=
  v.compare o < 0

/-- `(*Version).GreaterThan`: strictly-greater under semantic-version
ordering, the relation the spec's decision rule is stated with. -/
def SemVer.greaterThan (v o : SemVer) : Bool :=
  v.compare o > 0

/-- `(*Version).String`, as rendered by `fmt.Sprint(nextVersion)` when the
source builds the download URL. -/
def SemVer.render (v : SemVer) : String :=
  toString v.major ++ "." ++ toString v.minor ++ "." ++ toString v.patch ++
    (if v.pre ≠ "" then "-" ++ v.pre else "") ++
    (if v.metadata ≠ "" then "+" ++ v.metadata else "")

/-- The current version the source hardcodes (`version := "2.2.2"`), as parsed
by `semver.NewVersion`. -/
def currentVersion : SemVer := ⟨2, 2, 2, "", ""⟩

/-- The update decision at lines 104–107 of the source: the pipeline proceeds
to download and install unless `nextVersion.LessThan(currentVersion)`. -/
def updateProceeds (current next : SemVer) : Bool :=
  ! next.lessThan current

/-! ## SHA-256 (`crypto/sha256.Sum256`) and hex encoding (`hex.EncodeToString`)

Bytes are `Nat` values below 256; 32-bit words are `Nat` values reduced
modulo `2 ^ 32`. -/

/-- Reduce to a 32-bit word. -/
def w32 (n : Nat) : Nat := n % 4294967296

/-- Rotate a 32-bit word right by `n` bits. -/
def rotr32 (n x : Nat) : Nat := w32 ((x >>> n) ||| (x <<< (32 - n)))

/-- SHA-256 `Ch(x,y,z)`. -/
def shaCh (x y z : Nat) : Nat := (x &&& y) ^^^ ((x ^^^ 4294967295) &&& z)

/-- SHA-256 `Maj(x,y,z)`. -/
def shaMaj (x y z : Nat) : Nat := (x &&& y) ^^^ (x &&& z) ^^^ (y &&& z)

/-- SHA-256 `Σ0`. -/
def bigSigma0 (x : Nat) : Nat := rotr32 2 x ^^^ rotr32 13 x ^^^ rotr32 22 x

/-- SHA-256 `Σ1`. -/
def bigSigma1 (x : Nat) : Nat := rotr32 6 x ^^^ rotr32 11 x ^^^ rotr32 25 x

/-- SHA-256 `σ0`. -/
def smallSigma0 (x : Nat) : Nat := rotr32 7 x ^^^ rotr32 18 x ^^^ (x >>> 3)

/-- SHA-256 `σ1`. -/
def smallSigma1 (x : Nat) : Nat := rotr32 17 x ^^^ rotr32 19 x ^^^ (x >>> 10)

/-- The 64 SHA-256 round constants (FIPS 180-4), written in decimal. -/
def sha256K : List Nat :=
  [1116352408, 1899447441, 3049323471, 3921009573, 961987163, 1508970993,
   2453635748, 2870763221, 3624381080, 310598401, 607225278, 1426881987,
   1925078388, 2162078206, 2614888103, 3248222580, 3835390401, 4022224774,
   264347078, 604807628, 770255983, 1249150122, 1555081692, 1996064986,
   2554220882, 2821834349, 2952996808, 3210313671, 3336571891, 3584528711,
   113926993, 338241895, 666307205, 773529912, 1294757372, 1396182291,
   1695183700, 1986661051, 2177026350, 2456956037, 2730485921, 2820302411,
   3259730800, 3345764771, 3516065817, 3600352804, 4094571909, 275423344,
   430227734, 506948616, 659060556, 883997877, 958139571, 1322822218,
   1537002063, 1747873779, 1955562222, 2024104815, 2227730452, 2361852424,
   2428436474, 2756734187, 3204031479, 3329325298]

/-- The eight-word SHA-256 working state. -/
structure Hash8 where
  a : Nat
  b : Nat
  c : Nat
  d : Nat
  e : Nat
  f : Nat
  g : Nat
  h : Nat
deriving Repr, DecidableEq

/-- The SHA-256 initial hash value (FIPS 180-4), written in decimal. -/
def sha256H0 : Hash8 :=
  ⟨1779033703, 3144134277, 1013904242, 2773480762,
   1359893119, 2600822924, 528734635, 1541459225⟩

/-- Big-endian decomposition of `n` into `k` bytes. -/
def toBytesBE : Nat → Nat → List Nat
  | 0, _ => []
  | k + 1, n => toBytesBE k (n >>> 8) ++ [n % 256]

/-- Big-endian recomposition of a byte list into a number. -/
def bytesToNatBE : List Nat → Nat
  | [] => 0
  | b :: rest => b * 256 ^ rest.length + bytesToNatBE rest

/-- SHA-256 padding: append `0x80`, zero bytes to 56 mod 64, then the
bit length as 8 big-endian bytes. -/
def sha256Pad (msg : List Nat) : List Nat :=
  let L := msg.length
  let zeros := (64 - (L + 9) % 64) % 64
  msg ++ [0x80] ++ List.replicate zeros 0 ++ toBytesBE 8 (L * 8)

/-- Split a byte list into its successive 64-byte blocks; `fuel` bounds the
number of steps (structural recursion so that the kernel can evaluate it). -/
def chunks64Go : Nat → List Nat → List (List Nat)
  | 0, _ => []
  | fuel + 1, l => if l = [] then [] else l.take 64 :: chunks64Go fuel (l.drop 64)

/-- Split a byte list into its successive 64-byte blocks (the list's length
is always enough fuel, each step consuming at least one element). -/
def chunks64 (l : List Nat) : List (List Nat) := chunks64Go l.length l

/-- Pack big-endian 4-byte groups into 32-bit words. -/
def bytesToWords : List Nat → List Nat
  | b0 :: b1 :: b2 :: b3 :: rest =>
      ((b0 <<< 24) ||| (b1 <<< 16) ||| (b2 <<< 8) ||| b3) :: bytesToWords rest
  | _ => []

/-- One message-schedule extension step: append
`σ1(w[t-2]) + w[t-7] + σ0(w[t-15]) + w[t-16]`. -/
def scheduleStep (ws : List Nat) : List Nat :=
  let n := ws.length
  ws ++ [w32 (smallSigma1 (ws.getD (n - 2) 0) + ws.getD (n - 7) 0 +
              smallSigma0 (ws.getD (n - 15) 0) + ws.getD (n - 16) 0)]

/-- Extend the message schedule by `k` further words. -/
def buildSchedule (ws : List Nat) : Nat → List Nat
  | 0 => ws
  | k + 1 => buildSchedule (scheduleStep ws) k

/-- One SHA-256 round with constant `k` and schedule word `wt`. -/
def sha256Round (st : Hash8) (k wt : Nat) : Hash8 :=
  let t1 := w32 (st.h + bigSigma1 st.e + shaCh st.e st.f st.g + k + wt)
  let t2 := w32 (bigSigma0 st.a + shaMaj st.a st.b st.c)
  ⟨w32 (t1 + t2), st.a, st.b, st.c, w32 (st.d + t1), st.e, st.f, st.g⟩

/-- Compress one 64-byte block into the chaining state. -/
def compressBlock (H : Hash8) (block : List Nat) : Hash8 :=
  let w := buildSchedule (bytesToWords block) 48
  let st := (sha256K.zip w).foldl (fun st kw => sha256Round st kw.1 kw.2) H
  ⟨w32 (H.a + st.a), w32 (H.b + st.b), w32 (H.c + st.c), w32 (H.d + st.d),
   w32 (H.e + st.e), w32 (H.f + st.f), w32 (H.g + st.g), w32 (H.h + st.h)⟩

/-- Serialize the final state as the 32-byte digest. -/
def hashBytes (H : Hash8) : List Nat :=
  toBytesBE 4 H.a ++ toBytesBE 4 H.b ++ toBytesBE 4 H.c ++ toBytesBE 4 H.d ++
  toBytesBE 4 H.e ++ toBytesBE 4 H.f ++ toBytesBE 4 H.g ++ toBytesBE 4 H.h

/-- `sha256.Sum256`: the SHA-256 digest (32 bytes) of a byte sequence. -/
def sha256sum (msg : List Nat) : List Nat :=
  hashBytes ((chunks64 (sha256Pad msg)).foldl compressBlock sha256H0)

/-- The ASCII code of the lowercase hex digit for `n < 16`. -/
def hexDigitCode (n : Nat) : Nat := if n < 10 then 48 + n else 87 + n

/-- `hex.EncodeToString` on a byte list, as the list of ASCII codes of the
lowercase hex characters. -/
def hexEncodeBytes : List Nat → List Nat
  | [] => []
  | b :: rest => hexDigitCode (b >>> 4) :: hexDigitCode (b % 16) :: hexEncodeBytes rest

/-- The integrity comparison at line 153 of the source:
`hex.EncodeToString(computedSum[:]) == string(downloadedSum[:64])`, i.e. the
hex digest of the content against the first 64 bytes of the checksum file. -/
def verifyCmp (content shaFile : List Nat) : Bool :=
  hexEncodeBytes (sha256sum content) == shaFile.take 64

/-! ## The `runSelfUpdate` pipeline

The source's side effects (HTTP downloads, `os.Rename` calls, printed
messages) become an event trace; the results of OS and network calls come
from an `Env`.  `log.Fatal` terminates the process, modelled as an immediate
`Outcome.fatal`; a Go runtime panic from `versions[0]` on an empty slice or
from `downloadedSum[:64]` on a short file is a distinguished outcome. -/

/-- One observable effect of the pipeline. -/
inductive Event where
  | printed (msg : String)
  | download (url : String)
  | rename (src dst : String)
deriving Repr, DecidableEq

/-- How a run of `runSelfUpdate` ends. -/
inductive Outcome where
  | done
  | upToDate
  | fatal (msg : String)
  | panicIndexOutOfRange
  | panicSliceBounds
deriving Repr, DecidableEq

/-- The results the environment supplies to one run: the parsed release
feed, the host platform, and the outcome of every OS call the source makes
(`none` / `false` meaning that call returns an error). -/
structure Env where
  releases : List VersionResponse
  nextParse : Option SemVer
  goos : String
  goarch : String
  getwd : Option String
  tempBinaryName : Option String
  tempShaName : Option String
  download1Ok : Bool
  download2Ok : Bool
  readBinary : Option (List Nat)
  readSha : Option (List Nat)
  rename1Ok : Bool
  rename2Ok : Bool
deriving Repr, DecidableEq

/-- Is this event a download? -/
def Event.isDownload : Event → Bool
  | .download _ => true
  | _ => false

/-- Is this event a rename? -/
def Event.isRename : Event → Bool
  | .rename _ _ => true
  | _ => false

/-- Lines 142–171 of the source: read back the downloaded binary and checksum
file, compare digests (mismatch only prints), then the two renames.  `t` is
the event trace accumulated so far.  Go panics on `downloadedSum[:64]` when
the checksum file is shorter than 64 bytes. -/
def verifyAndInstall (env : Env) (t : List Event)
    (binaryFilePath currentBinaryPath : String) : List Event × Outcome :=
  match env.readBinary with
  | none => (t, Outcome.fatal "read failed")
  | some binaryFileContent =>
    match env.readSha with
    | none => (t, Outcome.fatal "read failed")
    | some downloadedSum =>
      if downloadedSum.length < 64 then (t, Outcome.panicSliceBounds)
      else
        let warn :=
          if verifyCmp binaryFileContent downloadedSum then []
          else [Event.printed "Sha256 hashes are not identically"]
        let t4 := t ++ warn ++
          [Event.printed "Sha256 hashes identically. Replace current binary with new update"]
        let t5 := t4 ++ [Event.rename currentBinaryPath (currentBinaryPath ++ "_old")]
        if !env.rename1Ok then (t5, Outcome.fatal "rename failed")
        else
          let t6 := t5 ++
            [Event.printed ("Move downdloaded file from " ++ binaryFilePath ++ " to " ++
                currentBinaryPath ++ "_tmp"),
             Event.rename binaryFilePath (currentBinaryPath ++ "_tmp")]
          if !env.rename2Ok then (t6, Outcome.fatal "rename failed")
          else (t6, Outcome.done)

/-- Lines 115–140 of the source: `os.Getwd`, the temp files, and the two
downloads (binary, then checksum sidecar), then `verifyAndInstall`. -/
def downloadPhase (env : Env) (t : List Event) (nextVersion : SemVer)
    (assetSuffix : String) : List Event × Outcome :=
  match env.getwd with
  | none => (t, Outcome.fatal "getwd failed")
  | some currentBinaryPath =>
    let binaryFileUrl :=
      "https://github.com/docker/compose/releases/download/v" ++
        nextVersion.render ++ "/docker-compose-" ++ assetSuffix
    match env.tempBinaryName with
    | none => (t, Outcome.fatal "tempfile failed")
    | some binaryFilePath =>
      let t2 := t ++ [Event.download binaryFileUrl]
      if !env.download1Ok then (t2, Outcome.fatal "download failed")
      else
        match env.tempShaName with
        | none => (t2, Outcome.fatal "tempfile failed")
        | some _ =>
          let t3 := t2 ++ [Event.download (binaryFileUrl ++ ".sha256")]
          if !env.download2Ok then (t3, Outcome.fatal "download failed")
          else verifyAndInstall env t3 binaryFilePath currentBinaryPath

/-- `runSelfUpdate` from the source, line by line.  `env.nextParse` stands for
`semver.NewVersion(versions[0].TagName)` (the external parser applied to the
feed's first tag); `currentVersion` is the parse of the hardcoded `"2.2.2"`,
which always succeeds. -/
def runSelfUpdate (env : Env) : List Event × Outcome :=
  let t0 := [Event.printed "Checking for new docker-compose version ..."]
  match env.releases.get? 0 with
  | none => (t0, Outcome.panicIndexOutOfRange)
  | some v0 =>
    let t1 := t0 ++ [Event.printed ("Latest tag is  " ++ v0.Name)]
    match env.nextParse with
    | none => (t1, Outcome.fatal "Failed to parse version from github releases")
    | some nextVersion =>
      if nextVersion.lessThan currentVersion then
        (t1 ++ [Event.printed "Latest version is already installed"], Outcome.upToDate)
      else
        match matchArchitecture env.goos env.goarch with
        | Except.error e => (t1, Outcome.fatal e)
        | Except.ok assetSuffix => downloadPhase env t1 nextVersion assetSuffix

/-! ## Concrete environments used to evaluate the pipeline -/

/-- A run on linux/amd64 whose downloaded binary is the empty byte string and
whose downloaded checksum file is 64 ASCII zeros — not the digest of the
content, so the integrity comparison fails. -/
def envMismatch : Env :=
  ⟨[⟨1, "https://api.github.com/r/1", "v2.3.0", "v2.3.0"⟩], some ⟨2, 3, 0, "", ""⟩,
   "linux", "amd64", some "/workdir", some "/workdir/docker-compose-tmp1",
   some "/tmp/docker-compose-1.sha256", true, true, some [],
   some (List.replicate 64 48), true, true⟩

/-- A run whose candidate release tag parses to exactly the current version
`2.2.2`, with a matching checksum for the downloaded content. -/
def envEqualVersion : Env :=
  ⟨[⟨1, "https://api.github.com/r/1", "v2.2.2", "v2.2.2"⟩], some ⟨2, 2, 2, "", ""⟩,
   "linux", "amd64", some "/workdir", some "/workdir/docker-compose-tmp1",
   some "/tmp/docker-compose-1.sha256", true, true, some [],
   some (hexEncodeBytes (sha256sum [])), true, true⟩

/-- A fully successful run: newer candidate, supported platform, matching
checksum, all OS calls succeed. -/
def envHappy : Env :=
  ⟨[⟨1, "https://api.github.com/r/1", "v2.3.0", "v2.3.0"⟩], some ⟨2, 3, 0, "", ""⟩,
   "linux", "amd64", some "/workdir", some "/workdir/docker-compose-tmp1",
   some "/tmp/docker-compose-1.sha256", true, true, some [],
   some (hexEncodeBytes (sha256sum [])), true, true⟩

/-- Like `envHappy` except that the second rename (moving the new binary into
place) fails after the first rename (the backup) succeeded. -/
def envStep2Fails : Env :=
  ⟨[⟨1, "https://api.github.com/r/1", "v2.3.0", "v2.3.0"⟩], some ⟨2, 3, 0, "", ""⟩,
   "linux", "amd64", some "/workdir", some "/workdir/docker-compose-tmp1",
   some "/tmp/docker-compose-1.sha256", true, true, some [],
   some (hexEncodeBytes (sha256sum [])), true, false⟩

/-- A run on the unsupported platform plan9/amd64, everything else healthy. -/
def envPlan9 : Env :=
  ⟨[⟨1, "https://api.github.com/r/1", "v2.3.0", "v2.3.0"⟩], some ⟨2, 3, 0, "", ""⟩,
   "plan9", "amd64", some "/workdir", some "/workdir/docker-compose-tmp1",
   some "/tmp/docker-compose-1.sha256", true, true, some [],
   some (hexEncodeBytes (sha256sum [])), true, true⟩

/-! ## Claims -/

/-- C3: the claim's support table does not match the code. On the documented
pairs (darwin,amd64), (windows,amd64), (linux,arm/v6) and (linux,arm/v7) the
code fails with the unsupported-platform error, because its branches test the
impossible `GOARCH` values `"x86_64"` and `""` instead of `"amd64"` and the
ARM identifiers; conversely it succeeds on (darwin,x86_64), (windows,x86_64)
and (linux,""), pairs outside the documented table. -/
theorem matchArchitecture_table_diverges :
    matchArchitecture "darwin" "amd64" = Except.error (noMatchingAssetsMsg "darwin" "amd64")
  ∧ matchArchitecture "windows" "amd64" = Except.error (noMatchingAssetsMsg "windows" "amd64")
  ∧ matchArchitecture "linux" "arm/v6" = Except.error (noMatchingAssetsMsg "linux" "arm/v6")
  ∧ matchArchitecture "linux" "arm/v7" = Except.error (noMatchingAssetsMsg "linux" "arm/v7")
  ∧ matchArchitecture "darwin" "arm64" = Except.ok "darwin-aarch64"
  ∧ matchArchitecture "linux" "amd64" = Except.ok "linux-x86_64"
  ∧ matchArchitecture "linux" "arm64" = Except.ok "linux-aarch64"
  ∧ matchArchitecture "linux" "s390x" = Except.ok "linux-s390x"
  ∧ matchArchitecture "darwin" "x86_64" = Except.ok "darwin-x86_64"
  ∧ matchArchitecture "windows" "x86_64" = Except.ok "windows-x86_64"
  ∧ matchArchitecture "linux" "" = Except.ok "linux-armv6" :=
  ⟨rfl, rfl, rfl, rfl, rfl, rfl, rfl, rfl, rfl, rfl, rfl⟩

/-- Does a `matchArchitecture` result carry the suffix "linux-armv7"? -/
def isArmv7Result : Except String String → Bool
  | Except.ok s => s == "linux-armv7"
  | Except.error _ => false

/-- C10: for every (GOOS, GOARCH) input, `matchArchitecture` never returns
the suffix "linux-armv7": that branch is guarded by the same condition
(`GOARCH == ""`) as the earlier "linux-armv6" branch, which always takes
precedence. -/
theorem matchArchitecture_armv7_unreachable (goos goarch : String) :
    isArmv7Result (matchArchitecture goos goarch) = false := by
  unfold matchArchitecture
  split_ifs <;> simp_all [isArmv7Result]

/-- C2: the code's update decision uses `LessThan`, so a candidate equal to
the current version is treated as an available update: `Compare` returns 0
(the candidate is not strictly greater) yet `updateProceeds` is true and the
pipeline goes on to download and install instead of stopping with "already
up to date". -/
theorem equal_version_still_updates :
    SemVer.compare ⟨2, 2, 2, "", ""⟩ currentVersion = 0
  ∧ SemVer.greaterThan ⟨2, 2, 2, "", ""⟩ currentVersion = false
  ∧ updateProceeds currentVersion ⟨2, 2, 2, "", ""⟩ = true
  ∧ (runSelfUpdate envEqualVersion).2 = Outcome.done
  ∧ ((runSelfUpdate envEqualVersion).1.filter Event.isDownload).length = 2 := by
  decide

/-- C1: on a checksum mismatch the pipeline only prints a warning and then
installs anyway — the run ends in `done` and both renames (the filesystem
replacement) happen even though the computed digest differs from the first
64 characters of the downloaded checksum file. -/
theorem checksum_mismatch_still_installs :
    verifyCmp [] (List.replicate 64 48) = false
  ∧ Event.printed "Sha256 hashes are not identically" ∈ (runSelfUpdate envMismatch).1
  ∧ (runSelfUpdate envMismatch).2 = Outcome.done
  ∧ Event.rename "/workdir" "/workdir_old" ∈ (runSelfUpdate envMismatch).1
  ∧ Event.rename "/workdir/docker-compose-tmp1" "/workdir_tmp" ∈ (runSelfUpdate envMismatch).1 := by
  decide

/-- C4: the Installer's first step renames the result of `os.Getwd()` — the
current working directory, not the running executable file — to
`<cwd>_old`.  The pipeline never queries the executable's path at all. -/
theorem backup_renames_working_directory :
    envHappy.getwd = some "/workdir"
  ∧ (runSelfUpdate envHappy).1.filter Event.isRename =
      [Event.rename "/workdir" "/workdir_old",
       Event.rename "/workdir/docker-compose-tmp1" "/workdir_tmp"]
  ∧ (runSelfUpdate envHappy).2 = Outcome.done := by
  decide

/-- C5: when step 2 (moving the new binary into place) fails after step 1
(the backup rename) succeeded, the pipeline stops fatally with no rollback:
the only renames ever attempted are the backup and the failed move, and no
rename restoring `_old` to the original path occurs. -/
theorem step2_failure_no_rollback :
    (runSelfUpdate envStep2Fails).2 = Outcome.fatal "rename failed"
  ∧ (runSelfUpdate envStep2Fails).1.filter Event.isRename =
      [Event.rename "/workdir" "/workdir_old",
       Event.rename "/workdir/docker-compose-tmp1" "/workdir_tmp"]
  ∧ Event.rename "/workdir_old" "/workdir" ∉ (runSelfUpdate envStep2Fails).1 := by
  decide

/-- No branch of `verifyAndInstall` ends in the index-out-of-range panic. -/
lemma verifyAndInstall_no_index_panic (env : Env) (t : List Event) (bp cp : String) :
    (verifyAndInstall env t bp cp).2 ≠ Outcome.panicIndexOutOfRange := by
  unfold verifyAndInstall
  repeat' split
  all_goals simp

/-- No branch of `downloadPhase` ends in the index-out-of-range panic. -/
lemma downloadPhase_no_index_panic (env : Env) (t : List Event) (nv : SemVer) (sfx : String) :
    (downloadPhase env t nv sfx).2 ≠ Outcome.panicIndexOutOfRange := by
  unfold downloadPhase
  repeat' split
  all_goals first
    | exact verifyAndInstall_no_index_panic env _ _ _
    | simp

/-- C7: asset resolution fails closed.  In any run that reaches platform
resolution (feed nonempty, candidate tag parsed, version check passed) where
`matchArchitecture` has no entry for the host pair, the pipeline stops fatally
with that unsupported-platform error and its trace contains no download and
no rename event. -/
theorem unsupported_platform_fails_closed (env : Env) (v0 : VersionResponse)
    (nv : SemVer) (msg : String)
    (h0 : env.releases.get? 0 = some v0)
    (h1 : env.nextParse = some nv)
    (h2 : nv.lessThan currentVersion = false)
    (h3 : matchArchitecture env.goos env.goarch = Except.error msg) :
    (runSelfUpdate env).2 = Outcome.fatal msg
  ∧ (runSelfUpdate env).1.filter Event.isDownload = []
  ∧ (runSelfUpdate env).1.filter Event.isRename = [] := by
  have h0a : env.releases[0]? = some v0 := by simpa using h0
  simp [runSelfUpdate, h0a, h1, h2, h3, Event.isDownload, Event.isRename]

/-- Witness for C7 at the concrete unsupported host plan9/amd64: the run
fails with the unsupported-platform message and performs zero downloads. -/
theorem unsupported_platform_fails_closed_witness :
    (runSelfUpdate envPlan9).2 = Outcome.fatal (noMatchingAssetsMsg "plan9" "amd64")
  ∧ (runSelfUpdate envPlan9).1.filter Event.isDownload = []
  ∧ (runSelfUpdate envPlan9).1.filter Event.isRename = [] :=
  unsupported_platform_fails_closed envPlan9
    ⟨1, "https://api.github.com/r/1", "v2.3.0", "v2.3.0"⟩ ⟨2, 3, 0, "", ""⟩
    (noMatchingAssetsMsg "plan9" "amd64") (by decide) (by decide) (by decide) rfl

/-- C8: the pipeline indexes `versions[0]` with no emptiness guard: a run
panics with index-out-of-range exactly when the parsed release list is empty,
which is also exactly when the index-0 access is out of bounds. -/
theorem empty_feed_panics (env : Env) :
    env.releases.isEmpty = decide ((runSelfUpdate env).2 = Outcome.panicIndexOutOfRange)
  ∧ env.releases.isEmpty = decide (env.releases.get? 0 = none) := by
  cases h : env.releases with
  | nil => simp [runSelfUpdate, h]
  | cons v rest =>
    constructor
    · simp only [runSelfUpdate, h, List.isEmpty_cons, List.getElem?_cons_zero, List.get?]
      split
      · simp
      · split
        · simp
        · split
          · simp
          · rw [eq_comm, decide_eq_false_iff_not]
            exact downloadPhase_no_index_panic env _ _ _
    · simp [h]

/-- Shifting the running index of the `searchAssets` loop: a hit found with
start index `i` is the index-0 hit offset by `i`; a miss is `(0, error)`
regardless of `i`. -/
lemma searchAssetsAux_shift (assets : List AssetsResponse) (needle : String) (i : Nat) :
    searchAssetsAux assets needle i =
      match searchAssetsAux assets needle 0 with
      | (j, none) => (i + j, none)
      | (_, some e) => (0, some e) := by
  induction assets generalizing i with
  | nil => simp [searchAssetsAux]
  | cons a rest ih =>
    by_cases h : a.Name = needle
    · simp [searchAssetsAux, h]
    · simp only [searchAssetsAux, h, if_false]
      rw [ih (i + 1), ih 1]
      rcases hr : searchAssetsAux rest needle 0 with ⟨j, e⟩
      cases e <;> simp [Nat.add_assoc]

/-- C9: `searchAssets` returns an error exactly when no asset's `Name` equals
the needle; in the error case the returned index is 0; and in the success
case every asset strictly before the returned index fails the match while the
asset at the returned index has `Name` equal to the needle — i.e. the result
is the smallest matching index. -/
theorem searchAssets_first_match (assets : List AssetsResponse) (needle : String) :
    ((searchAssets assets needle).2.isSome = ! assets.any (fun a => a.Name == needle))
  ∧ ((assets.take (searchAssets assets needle).1).all (fun a => ! (a.Name == needle)) = true)
  ∧ (if (searchAssets assets needle).2.isSome
      then (searchAssets assets needle).1 = 0
      else (assets.get? (searchAssets assets needle).1).map AssetsResponse.Name = some needle) := by
  induction assets with
  | nil => simp [searchAssets, searchAssetsAux]
  | cons a rest ih =>
    by_cases h : a.Name = needle
    · simp [searchAssets, searchAssetsAux, h]
    · have hcons : searchAssets (a :: rest) needle =
        match searchAssets rest needle with
        | (j, none) => (1 + j, none)
        | (_, some e) => (0, some e) := by
        show searchAssetsAux (a :: rest) needle 0 = _
        simp only [searchAssetsAux, h, if_false]
        exact searchAssetsAux_shift rest needle 1
      rcases hr : searchAssets rest needle with ⟨j, e⟩
      rw [hr] at ih hcons
      obtain ⟨ih1, ih2, ih3⟩ := ih
      simp only at ih1 ih2 ih3
      cases e with
      | none =>
        have hc : searchAssets (a :: rest) needle = (j + 1, none) := by
          rw [hcons]; simp [Nat.add_comm]
        have ih1a : rest.any (fun a => a.Name == needle) = true := by
          cases hx : rest.any (fun a => a.Name == needle)
          · rw [hx] at ih1; simp_all
          · rfl
        have ih3a : (rest.get? j).map AssetsResponse.Name = some needle := by
          simpa using ih3
        refine ⟨?_, ?_, ?_⟩
        · simp [hc, List.any_cons, ih1a]
        · simp [hc, List.take_succ_cons, List.all_cons, h, ih2]
        · simpa [hc, List.get?_cons_succ] using ih3a
      | some msg =>
        have hc : searchAssets (a :: rest) needle = (0, some msg) := by
          rw [hcons]
        have ih1a : rest.any (fun a => a.Name == needle) = false := by
          cases hx : rest.any (fun a => a.Name == needle)
          · rfl
          · rw [hx] at ih1; simp_all
        refine ⟨?_, ?_, ?_⟩
        · simp [hc, List.any_cons, ih1a, h]
        · simp [hc]
        · simp [hc]

/-! ## Integrity verification: round-trip and its limits (C6) -/

/-- `toBytesBE` yields exactly `k` bytes. -/
lemma toBytesBE_length (k n : Nat) : (toBytesBE k n).length = k := by
  induction k generalizing n with
  | zero => simp [toBytesBE]
  | succ k ih => simp [toBytesBE, ih]

/-- Every entry of `toBytesBE` is a byte. -/
lemma toBytesBE_mem_lt (k n : Nat) : ∀ x ∈ toBytesBE k n, x < 256 := by
  induction k generalizing n with
  | zero => simp [toBytesBE]
  | succ k ih =>
    intro x hx
    simp only [toBytesBE, List.mem_append, List.mem_singleton] at hx
    rcases hx with hx | hx
    · exact ih _ x hx
    · subst hx; exact Nat.mod_lt _ (by norm_num)

/-- The serialized hash state is 32 bytes. -/
lemma hashBytes_length (H : Hash8) : (hashBytes H).length = 32 := by
  simp [hashBytes, toBytesBE_length]

/-- A SHA-256 digest is 32 bytes long. -/
lemma sha256sum_length (msg : List Nat) : (sha256sum msg).length = 32 := by
  unfold sha256sum; exact hashBytes_length _

/-- Every entry of the serialized hash state is a byte. -/
lemma hashBytes_mem_lt (H : Hash8) : ∀ x ∈ hashBytes H, x < 256 := by
  intro x hx
  simp only [hashBytes, List.mem_append] at hx
  rcases hx with ((((((hx | hx) | hx) | hx) | hx) | hx) | hx) | hx <;>
    exact toBytesBE_mem_lt _ _ x hx

/-- Every entry of a SHA-256 digest is a byte. -/
lemma sha256sum_mem_lt (msg : List Nat) : ∀ x ∈ sha256sum msg, x < 256 := by
  unfold sha256sum; exact hashBytes_mem_lt _

/-- Hex encoding doubles the length. -/
lemma hexEncodeBytes_length (l : List Nat) : (hexEncodeBytes l).length = 2 * l.length := by
  induction l with
  | nil => simp [hexEncodeBytes]
  | cons b rest ih => simp [hexEncodeBytes, ih]; omega

/-- The hex-encoded digest is exactly 64 characters. -/
lemma digestHex_length (msg : List Nat) : (hexEncodeBytes (sha256sum msg)).length = 64 := by
  rw [hexEncodeBytes_length, sha256sum_length]

/-- Taking the first 64 characters of a checksum file that starts with the
hex digest recovers exactly the hex digest. -/
lemma digestHex_take (msg : List Nat) (rest : List Nat) :
    (hexEncodeBytes (sha256sum msg) ++ rest).take 64 = hexEncodeBytes (sha256sum msg) := by
  rw [List.take_append_eq_append_take, digestHex_length]
  simp [List.take_of_length_le (le_of_eq (digestHex_length msg))]

/-- Hex digit codes are injective (digits land in 48–57, letters in 97+). -/
lemma hexDigitCode_inj {m n : Nat} (h : hexDigitCode m = hexDigitCode n) : m = n := by
  unfold hexDigitCode at h
  split_ifs at h <;> omega

/-- Hex encoding is injective. -/
lemma hexEncodeBytes_inj : ∀ {l1 l2 : List Nat},
    hexEncodeBytes l1 = hexEncodeBytes l2 → l1 = l2 := by
  intro l1
  induction l1 with
  | nil => intro l2 h; cases l2 with
    | nil => rfl
    | cons b rest => simp [hexEncodeBytes] at h
  | cons b rest ih =>
    intro l2 h
    cases l2 with
    | nil => simp [hexEncodeBytes] at h
    | cons b2 rest2 =>
      simp only [hexEncodeBytes, List.cons.injEq] at h
      obtain ⟨h1, h2, h3⟩ := h
      have e1 : b >>> 4 = b2 >>> 4 := hexDigitCode_inj h1
      have e2 : b % 16 = b2 % 16 := hexDigitCode_inj h2
      have e3 : b = b2 := by
        rw [Nat.shiftRight_eq_div_pow] at e1
        norm_num at e1
        omega
      rw [e3, ih h3]

/-- Peeling the last byte off a big-endian decode. -/
lemma bytesToNatBE_append (l : List Nat) (b : Nat) :
    bytesToNatBE (l ++ [b]) = bytesToNatBE l * 256 + b := by
  induction l with
  | nil => simp [bytesToNatBE]
  | cons x rest ih =>
    simp only [List.cons_append, bytesToNatBE, List.length_append,
      List.length_singleton, List.append_eq]
    rw [ih]
    ring

/-- A byte list decodes below `256 ^ length`. -/
lemma bytesToNatBE_lt (l : List Nat) (h : ∀ x ∈ l, x < 256) :
    bytesToNatBE l < 256 ^ l.length := by
  induction l with
  | nil => simp [bytesToNatBE]
  | cons b rest ih =>
    have hb : b < 256 := h b (List.mem_cons_self _ _)
    have hr : bytesToNatBE rest < 256 ^ rest.length :=
      ih (fun x hx => h x (List.mem_cons_of_mem _ hx))
    simp only [bytesToNatBE, List.length_cons, pow_succ]
    calc b * 256 ^ rest.length + bytesToNatBE rest
        < b * 256 ^ rest.length + 256 ^ rest.length := by omega
      _ = (b + 1) * 256 ^ rest.length := by ring
      _ ≤ 256 * 256 ^ rest.length := by
          have : b + 1 ≤ 256 := by omega
          exact Nat.mul_le_mul_right _ this
      _ = 256 ^ rest.length * 256 := by ring

/-- Big-endian decoding is injective on byte lists of equal length. -/
lemma bytesToNatBE_inj : ∀ (l1 l2 : List Nat), l1.length = l2.length →
    (∀ x ∈ l1, x < 256) → (∀ x ∈ l2, x < 256) →
    bytesToNatBE l1 = bytesToNatBE l2 → l1 = l2 := by
  intro l1
  induction l1 with
  | nil => intro l2 hlen _ _ _; cases l2 with
    | nil => rfl
    | cons b r => simp at hlen
  | cons b rest ih =>
    intro l2 hlen hb1 hb2 heq
    cases l2 with
    | nil => simp at hlen
    | cons b2 rest2 =>
      simp only [List.length_cons, Nat.succ.injEq] at hlen
      simp only [bytesToNatBE, hlen] at heq
      have hr1 : bytesToNatBE rest < 256 ^ rest2.length := by
        rw [← hlen]
        exact bytesToNatBE_lt rest (fun x hx => hb1 x (List.mem_cons_of_mem _ hx))
      have hr2 : bytesToNatBE rest2 < 256 ^ rest2.length :=
        bytesToNatBE_lt rest2 (fun x hx => hb2 x (List.mem_cons_of_mem _ hx))
      have hP : 0 < 256 ^ rest2.length := Nat.pos_pow_of_pos _ (by norm_num)
      have hbb : b = b2 := by
        by_contra hne
        rcases Nat.lt_or_ge b b2 with hlt | hge
        · have : b * 256 ^ rest2.length + bytesToNatBE rest <
              b2 * 256 ^ rest2.length + bytesToNatBE rest2 := by
            calc b * 256 ^ rest2.length + bytesToNatBE rest
                < b * 256 ^ rest2.length + 256 ^ rest2.length := by omega
              _ = (b + 1) * 256 ^ rest2.length := by ring
              _ ≤ b2 * 256 ^ rest2.length := Nat.mul_le_mul_right _ (by omega)
              _ ≤ b2 * 256 ^ rest2.length + bytesToNatBE rest2 := Nat.le_add_right _ _
          omega
        · have hlt2 : b2 < b := by omega
          have : b2 * 256 ^ rest2.length + bytesToNatBE rest2 <
              b * 256 ^ rest2.length + bytesToNatBE rest := by
            calc b2 * 256 ^ rest2.length + bytesToNatBE rest2
                < b2 * 256 ^ rest2.length + 256 ^ rest2.length := by omega
              _ = (b2 + 1) * 256 ^ rest2.length := by ring
              _ ≤ b * 256 ^ rest2.length := Nat.mul_le_mul_right _ (by omega)
              _ ≤ b * 256 ^ rest2.length + bytesToNatBE rest := Nat.le_add_right _ _
          omega
      subst hbb
      have hrest : bytesToNatBE rest = bytesToNatBE rest2 := by omega
      rw [ih rest2 hlen (fun x hx => hb1 x (List.mem_cons_of_mem _ hx))
        (fun x hx => hb2 x (List.mem_cons_of_mem _ hx)) hrest]

/-- Decoding inverts `toBytesBE` modulo `256 ^ k`. -/
lemma toBytesBE_decode (k n : Nat) : bytesToNatBE (toBytesBE k n) = n % 256 ^ k := by
  induction k generalizing n with
  | zero => simp [toBytesBE, bytesToNatBE, Nat.mod_one]
  | succ k ih =>
    simp only [toBytesBE, bytesToNatBE_append, ih]
    rw [Nat.shiftRight_eq_div_pow]
    norm_num
    have hmm : n % (256 ^ k * 256) = n % 256 + 256 * (n / 256 % 256 ^ k) := by
      rw [mul_comm (256 ^ k) 256]
      exact Nat.mod_mul
    rw [pow_succ, hmm]
    ring

/-- A digest, read as a big-endian number, is below `256 ^ 32`. -/
lemma digestNat_lt (msg : List Nat) : bytesToNatBE (sha256sum msg) < 256 ^ 32 := by
  have h1 := bytesToNatBE_lt (sha256sum msg) (sha256sum_mem_lt _)
  rwa [sha256sum_length] at h1

/-- The SHA-256 digest of a 33-byte message, as a number below `256 ^ 32`. -/
def digestFin (n : Fin (256 ^ 33)) : Fin (256 ^ 32) :=
  ⟨bytesToNatBE (sha256sum (toBytesBE 33 n.val)), digestNat_lt _⟩

/-- Unfolding `digestFin`. -/
lemma digestFin_val (n : Fin (256 ^ 33)) :
    (digestFin n).val = bytesToNatBE (sha256sum (toBytesBE 33 n.val)) := rfl

/-- C6 (amended): when the checksum file's first 64 characters are exactly
the lowercase-hex SHA-256 digest of `b`, the source's comparison accepts `b`;
and it rejects another content `bp` against that same checksum file exactly
when the SHA-256 digests of `bp` and `b` differ (not whenever the bytes
differ: by `claimC6_false` two distinct equal-length byte sequences with equal
digests exist, and such a change is accepted). -/
theorem verifyCmp_roundtrip (b bp rest : List Nat) :
    verifyCmp b (hexEncodeBytes (sha256sum b) ++ rest) = true
  ∧ (verifyCmp bp (hexEncodeBytes (sha256sum b) ++ rest) = false ↔
      sha256sum bp ≠ sha256sum b) := by
  constructor
  · simp [verifyCmp, digestHex_take]
  · simp only [verifyCmp, digestHex_take]
    constructor
    · intro h heq
      rw [heq] at h
      simp at h
    · intro hne
      cases hx : (hexEncodeBytes (sha256sum bp) == hexEncodeBytes (sha256sum b))
      · rfl
      · exact absurd (hexEncodeBytes_inj (beq_iff_eq.mp hx)) hne

/-- Witness for C6 at concrete contents: the empty content verifies against
its own digest file, and the content `[0]` verifies false against it exactly
because the digests differ. -/
theorem verifyCmp_roundtrip_witness :
    verifyCmp [] (hexEncodeBytes (sha256sum []) ++ []) = true
  ∧ (verifyCmp [0] (hexEncodeBytes (sha256sum []) ++ []) = false ↔
      sha256sum [0] ≠ sha256sum []) :=
  verifyCmp_roundtrip [] [0] []

/-- C6 as claimed: every checksum file beginning with the hex digest of `b`
accepts `b`, and rejects every byte sequence obtained from `b` by changing at
least one byte (same length, at least one position different). -/
def claimC6Statement : Prop :=
  ∀ (b file : List Nat), file.take 64 = hexEncodeBytes (sha256sum b) →
    verifyCmp b file = true ∧
    ∀ bp : List Nat, (∀ x ∈ b, x < 256) → (∀ x ∈ bp, x < 256) →
      bp.length = b.length → bp ≠ b → verifyCmp bp file = false

/-- C6 counterexample: the claimed statement is false.  By pigeonhole there
are two distinct 33-byte messages with the same SHA-256 digest (there are
`256 ^ 33` messages but only `256 ^ 32` digests), and the comparison accepts
the changed message against the original's checksum file. -/
theorem claimC6_false : ¬ claimC6Statement := by
  intro hclaim
  have hcard : Fintype.card (Fin (256 ^ 32)) < Fintype.card (Fin (256 ^ 33)) := by
    simp only [Fintype.card_fin]
    have hpos : 0 < (256 : Nat) ^ 32 := Nat.pos_pow_of_pos _ (by norm_num)
    have h33 : (256 : Nat) ^ 33 = 256 ^ 32 * 256 := by ring
    omega
  obtain ⟨x, y, hxy, hfeq⟩ := Fintype.exists_ne_map_eq_of_card_lt digestFin hcard
  have hvals := congrArg Fin.val hfeq
  rw [digestFin_val, digestFin_val] at hvals
  have hshas : sha256sum (toBytesBE 33 y.val) = sha256sum (toBytesBE 33 x.val) :=
    bytesToNatBE_inj _ _ (by rw [sha256sum_length, sha256sum_length])
      (sha256sum_mem_lt _) (sha256sum_mem_lt _) hvals.symm
  have hlen : (toBytesBE 33 y.val).length = (toBytesBE 33 x.val).length := by
    rw [toBytesBE_length, toBytesBE_length]
  have hneq : toBytesBE 33 y.val ≠ toBytesBE 33 x.val := by
    intro heq
    apply hxy
    have hdec : bytesToNatBE (toBytesBE 33 x.val) = bytesToNatBE (toBytesBE 33 y.val) := by
      rw [heq]
    rw [toBytesBE_decode, toBytesBE_decode, Nat.mod_eq_of_lt x.isLt,
      Nat.mod_eq_of_lt y.isLt] at hdec
    exact Fin.ext hdec
  have htake : (hexEncodeBytes (sha256sum (toBytesBE 33 x.val))).take 64 =
      hexEncodeBytes (sha256sum (toBytesBE 33 x.val)) := by
    simpa using digestHex_take (toBytesBE 33 x.val) ([] : List Nat)
  obtain ⟨-, hforall⟩ := hclaim (toBytesBE 33 x.val)
    (hexEncodeBytes (sha256sum (toBytesBE 33 x.val))) htake
  have hfalse := hforall (toBytesBE 33 y.val) (toBytesBE_mem_lt 33 x.val)
    (toBytesBE_mem_lt 33 y.val) hlen hneq
  unfold verifyCmp at hfalse
  rw [htake, hshas] at hfalse
  simp at hfalse
